import Mathlib

/-!
Verification development for the sly-desk-booking client: a shallow
embedding of the booking data model, the two conflict-detection
implementations (bookingsService.checkTimeConflict over Date values and
SheetsService.checkTimeConflict over minutes since midnight), the booking
repository operations (getBookings, addBooking, deleteBooking) together
with models of the backend behaviour they delegate to, and the two UI
flows that call the conflict check (BookingForm.onSubmit and
MyBookings.handleUpdateBooking).
-/

/-- In-memory booking record (src: types/booking.ts, BookingSlot).
Optional fields are modelled as Option. -/
structure BookingSlot where
  id : String
  date : String
  startTime : String
  endTime : String
  title : String
  bookedBy : String
  email : Option String
  department : Option String
  createdAt : String
  user_id : String
deriving DecidableEq

/-- Booking form payload (src: types/booking.ts, BookingFormData). -/
structure BookingFormData where
  title : String
  bookedBy : String
  email : Option String
  department : Option String
  date : String
  startTime : String
  endTime : String
deriving DecidableEq

/-- Wire representation of a bookings table row (snake_case columns, per the
supabase migrations and the mapping in getBookings). Nullable text columns
are Option. -/
structure BookingRow where
  id : String
  date : String
  start_time : String
  end_time : String
  title : String
  booked_by : String
  email : Option String
  department : Option String
  created_at : String
  user_id : String
deriving DecidableEq

/-- Model of the JS expression s.split(sep) for a one-character separator,
specialised to the colon used by timeToMinutes; structural on the character
list so every theorem below evaluates in the kernel. -/
def splitOnColon : List Char → List (List Char)
  | [] => [[]]
  | c :: rest =>
    let r := splitOnColon rest
    if c = ':' then [] :: r
    else
      match r with
      | [] => [[c]]
      | g :: gs => (c :: g) :: gs

/-- One step of reading a decimal numeral left to right. -/
def jsNumberStep (acc : Option Nat) (c : Char) : Option Nat :=
  match acc with
  | some a => if c.isDigit then some (a * 10 + (c.toNat - 48)) else none
  | none => none

/-- Model of the JS expression Number(s) on the strings this app produces:
a run of decimal digits evaluates to its value (JS also sends the empty
string to 0); none models NaN for anything else. -/
def jsNumber (cs : List Char) : Option Nat :=
  cs.foldl jsNumberStep (some 0)

/-- Model of SheetsService.timeToMinutes: split the time string on the
colon, read the first two components as numbers (hours, minutes) and return
hours * 60 + minutes; none models a NaN result from a missing or
non-numeric component. -/
def timeToMinutes (time : String) : Option Nat :=
  match (splitOnColon time.data).map jsNumber with
  | some h :: some m :: _ => some (h * 60 + m)
  | _ => none

/-- Minute-of-day value of a time string, defaulting to 0; the theorems
below use it only under a validTime hypothesis, where timeToMinutes is
some. -/
def mins (time : String) : Nat :=
  (timeToMinutes time).getD 0

/-- A well-formed "HH:mm" clock time: exactly two colon-separated
components, both nonempty digit runs, hours below 24 and minutes below
60. -/
def validTime (s : String) : Bool :=
  match splitOnColon s.data with
  | [h, m] =>
    !h.isEmpty && h.all Char.isDigit && !m.isEmpty && m.all Char.isDigit &&
      ((jsNumber h).getD 0 < 24 && (jsNumber m).getD 0 < 60)
  | _ => false

/-- The JS less-than on number values where none models NaN: every
comparison with NaN is false. -/
def jsLt : Option Nat → Option Nat → Bool
  | some a, some b => decide (a < b)
  | _, _ => false

/-- Injective numeric code of a string; models that distinct parseable date
strings denote distinct calendar days on the JS time line. -/
def strCode (s : String) : Nat :=
  s.data.foldl (fun acc c => acc * 1114112 + (c.toNat + 1)) 0

/-- Model of the numeric value of the JS expression
new Date(d ++ " " ++ t): a day component determined by the date string plus
the minute of day, with none modelling an Invalid Date (V8 rejects
out-of-range clock components such as "09:75"). The conflict check below
only ever compares two such values carrying the same date string, so only
the minute components and validity matter to the theorems. -/
def dateNumber (d t : String) : Option Nat :=
  if validTime t then (timeToMinutes t).map (fun m => strCode d * 1440 + m)
  else none

namespace bookingsService

/-- Model of bookingsService.checkTimeConflict: build Date values for the
candidate interval and, for each existing booking whose date equals the
candidate date, for that booking, and report whether some such booking
satisfies newStart < existingEnd AND newEnd > existingStart. Bookings on a
different date are skipped before any time comparison. -/
def checkTimeConflict (date startTime endTime : String)
    (existingBookings : List BookingSlot) : Bool :=
  let newStart := dateNumber date startTime
  let newEnd := dateNumber date endTime
  existingBookings.any fun booking =>
    if booking.date ≠ date then false
    else
      let existingStart := dateNumber booking.date booking.startTime
      let existingEnd := dateNumber booking.date booking.endTime
      jsLt newStart existingEnd && jsLt existingStart newEnd

/-- Wire-to-memory field mapping performed by getBookings: snake_case
columns to the BookingSlot shape; the JS expression x || undefined sends a
null or empty metadata column to undefined (none). -/
def mapRow (booking : BookingRow) : BookingSlot :=
  { id := booking.id
    date := booking.date
    startTime := booking.start_time
    endTime := booking.end_time
    title := booking.title
    bookedBy := booking.booked_by
    email :=
      match booking.email with
      | some s => if s = "" then none else some s
      | none => none
    department :=
      match booking.department with
      | some s => if s = "" then none else some s
      | none => none
    createdAt := booking.created_at
    user_id := booking.user_id }

/-- Lexicographic byte order on character lists; models the backend's
ascending text ordering on the date column (for ISO yyyy-mm-dd dates this
is chronological order). -/
def charListLe : List Char → List Char → Bool
  | [], _ => true
  | _ :: _, [] => false
  | a :: as, b :: bs =>
    if a.toNat < b.toNat then true
    else if b.toNat < a.toNat then false
    else charListLe as bs

/-- String ordering used by the backend sort model. -/
def strLe (a b : String) : Bool :=
  charListLe a.data b.data

/-- The backend response to select * ordered by date ascending, modelled as
a merge sort of the stored rows by the date column. -/
def dbSelectOrderByDate (store : List BookingRow) : List BookingRow :=
  store.mergeSort (fun a b => strLe a.date b.date)

/-- Model of bookingsService.getBookings applied to the backend response:
an error response is rethrown unchanged; a data response is mapped
row-by-row to the in-memory shape (a null data is replaced by the empty
list). -/
def getBookings (resp : Except String (Option (List BookingRow))) :
    Except String (List BookingSlot) :=
  match resp with
  | Except.error e => Except.error e
  | Except.ok data => Except.ok ((data.getD []).map mapRow)

/-- Model of bookingsService.addBooking composed with the backend insert:
the new row is appended unconditionally (the function performs no conflict
check of any kind), with id and created_at assigned by the storage layer,
and the call reports true. -/
def addBooking (bookingData : BookingFormData) (userId : String)
    (store : List BookingRow) (newId createdAt : String) :
    List BookingRow × Bool :=
  (store ++
    [{ id := newId
       date := bookingData.date
       start_time := bookingData.startTime
       end_time := bookingData.endTime
       title := bookingData.title
       booked_by := bookingData.bookedBy
       email := bookingData.email
       department := bookingData.department
       created_at := createdAt
       user_id := userId }], true)

/-- The backend's conditional delete for delete().eq(id).eq(user_id):
under the row-level-security policy on the bookings table
(src/supabase/migrations: delete allowed only where auth.uid() = user_id)
the statement removes exactly the matching owned rows, and a SQL DELETE
that matches zero rows completes without error, so the response error is
always none. -/
def dbDelete (store : List BookingRow) (bookingId uid : String) :
    List BookingRow × Option String :=
  (store.filter (fun r => !(r.id == bookingId && r.user_id == uid)), none)

/-- Model of bookingsService.deleteBooking: throws if no user is signed in,
rethrows a backend error, and otherwise reports true. -/
def deleteBooking (user : Option String) (store : List BookingRow)
    (bookingId : String) : List BookingRow × Except String Bool :=
  match user with
  | none => (store, Except.error "User not authenticated")
  | some uid =>
    match dbDelete store bookingId uid with
    | (newStore, none) => (newStore, Except.ok true)
    | (_, some e) => (store, Except.error e)

end bookingsService

namespace SheetsService

/-- Model of SheetsService.checkTimeConflict: convert the candidate
interval and each same-date booking to minutes since midnight using
timeToMinutes and test start < bookingEnd AND end > bookingStart. -/
def checkTimeConflict (date startTime endTime : String)
    (bookings : List BookingSlot) : Bool :=
  let start := timeToMinutes startTime
  let stop := timeToMinutes endTime
  bookings.any fun booking =>
    if booking.date ≠ date then false
    else
      let bookingStart := timeToMinutes booking.startTime
      let bookingEnd := timeToMinutes booking.endTime
      jsLt start bookingEnd && jsLt bookingStart stop

end SheetsService

namespace BookingForm

/-- Outcome of one run of the submit handler: whether the repository create
was invoked, and the conflict error text left in the component state. -/
structure SubmitResult where
  calledAddBooking : Bool
  conflictError : String
deriving DecidableEq

/-- Model of BookingForm.onSubmit control flow: without a signed-in user
the handler returns at once; with one, a detected time conflict sets the
conflict error and returns before the repository is invoked; otherwise
addBooking is reached. -/
def onSubmit (user : Option String) (data : BookingFormData)
    (existingBookings : List BookingSlot) : SubmitResult :=
  match user with
  | none => { calledAddBooking := false, conflictError := "" }
  | some _ =>
    if bookingsService.checkTimeConflict data.date data.startTime
        data.endTime existingBookings then
      { calledAddBooking := false
        conflictError := "This time slot conflicts with an existing booking. Please choose a different time." }
    else
      { calledAddBooking := true, conflictError := "" }

end BookingForm

namespace MyBookings

/-- The comparison set built by handleUpdateBooking before its conflict
check: every booking except the one being edited, filtered by id. -/
def otherBookings (bookings : List BookingSlot) (editingId : String) :
    List BookingSlot :=
  bookings.filter (fun booking => booking.id != editingId)

/-- Model of the conflict check performed by handleUpdateBooking: it runs
checkTimeConflict against otherBookings only. -/
def updateConflict (data : BookingFormData) (bookings : List BookingSlot)
    (editingId : String) : Bool :=
  bookingsService.checkTimeConflict data.date data.startTime data.endTime
    (otherBookings bookings editingId)

end MyBookings

/-! Sample records used by the concrete witness theorems. -/

/-- A concrete well-formed booking (the scenario of the spec's end-to-end
test). -/
def staffMeeting : BookingSlot :=
  { id := "b1", date := "2025-03-10", startTime := "09:00", endTime := "10:00",
    title := "Staff Meeting", bookedBy := "A. Officer", email := none,
    department := none, createdAt := "2025-03-01T08:00:00Z", user_id := "u1" }

/-- A booking with the same clock times as the overlap candidate but on the
next day. -/
def offByOneDay : BookingSlot :=
  { id := "b2", date := "2025-03-11", startTime := "09:30", endTime := "10:30",
    title := "Planning", bookedBy := "B. Officer", email := none,
    department := none, createdAt := "2025-03-01T09:00:00Z", user_id := "u2" }

/-- staffMeeting with every metadata field changed but the same date and
times. -/
def staffMeetingRelabelled : BookingSlot :=
  { id := "z9", date := "2025-03-10", startTime := "09:00", endTime := "10:00",
    title := "Renamed", bookedBy := "C. Officer", email := some "c@x.org",
    department := some "Ops", createdAt := "2025-03-02T08:00:00Z",
    user_id := "u3" }

/-- A concrete form submission overlapping staffMeeting. -/
def budgetReview : BookingFormData :=
  { title := "Budget Review", bookedBy := "B. Officer", email := none,
    department := none, date := "2025-03-10", startTime := "09:30",
    endTime := "10:30" }

/-! Helper lemmas about the time parsing and comparison model. -/

lemma jsNumber_aux (cs : List Char) (h : ∀ c ∈ cs, c.isDigit = true) :
    ∀ a : Nat, ∃ n, cs.foldl jsNumberStep (some a) = some n := by
  induction cs with
  | nil => intro a; exact ⟨a, rfl⟩
  | cons c cs ih =>
    intro a
    have hc : c.isDigit = true := h c (List.mem_cons_self _ _)
    have := ih (fun x hx => h x (List.mem_cons_of_mem _ hx)) (a * 10 + (c.toNat - 48))
    simpa [List.foldl_cons, jsNumberStep, hc] using this

lemma jsNumber_isSome (cs : List Char) (h : cs.all Char.isDigit = true) :
    ∃ n, jsNumber cs = some n := by
  have h2 : ∀ c ∈ cs, c.isDigit = true := by
    intro c hc; exact List.all_eq_true.mp h c hc
  exact jsNumber_aux cs h2 0

lemma timeToMinutes_isSome (t : String) (h : validTime t = true) :
    ∃ n, timeToMinutes t = some n := by
  unfold validTime at h
  unfold timeToMinutes
  cases hsp : splitOnColon t.data with
  | nil => rw [hsp] at h; exact absurd h (by simp)
  | cons x xs =>
    cases xs with
    | nil => rw [hsp] at h; exact absurd h (by simp)
    | cons y ys =>
      cases ys with
      | cons z zs => rw [hsp] at h; exact absurd h (by simp)
      | nil =>
        rw [hsp] at h
        simp only [Bool.and_eq_true] at h
        obtain ⟨⟨⟨⟨hx0, hx⟩, hy0⟩, hy⟩, _⟩ := h
        obtain ⟨nx, hnx⟩ := jsNumber_isSome x hx
        obtain ⟨ny, hny⟩ := jsNumber_isSome y hy
        exact ⟨nx * 60 + ny, by simp [List.map_cons, hnx, hny]⟩

lemma timeToMinutes_valid (t : String) (h : validTime t = true) :
    timeToMinutes t = some (mins t) := by
  obtain ⟨n, hn⟩ := timeToMinutes_isSome t h
  rw [hn]
  simp [mins, hn]

lemma dateNumber_valid (d t : String) (h : validTime t = true) :
    dateNumber d t = some (strCode d * 1440 + mins t) := by
  unfold dateNumber
  rw [h, timeToMinutes_valid t h]
  simp

lemma jsLt_shift (c a b : Nat) :
    jsLt (some (c + a)) (some (c + b)) = decide (a < b) := by
  simp [jsLt, Nat.add_lt_add_iff_left]

lemma checkTimeConflict_eq_any (date s e : String) (L : List BookingSlot) :
    bookingsService.checkTimeConflict date s e L =
      L.any (fun b =>
        if b.date ≠ date then false
        else
          jsLt (dateNumber date s) (dateNumber b.date b.endTime) &&
            jsLt (dateNumber b.date b.startTime) (dateNumber date e)) := rfl

lemma conflictElem (date s e : String) (b : BookingSlot)
    (hs : validTime s = true) (he : validTime e = true)
    (hb : b.date = date → validTime b.startTime = true ∧ validTime b.endTime = true) :
    ((if b.date ≠ date then false
      else
        jsLt (dateNumber date s) (dateNumber b.date b.endTime) &&
          jsLt (dateNumber b.date b.startTime) (dateNumber date e)) = true)
    ↔ (b.date = date ∧ mins s < mins b.endTime ∧ mins b.startTime < mins e) := by
  by_cases hbd : b.date = date
  · obtain ⟨hbs, hbe⟩ := hb hbd
    rw [hbd]
    rw [dateNumber_valid date s hs, dateNumber_valid date e he,
        dateNumber_valid date b.endTime hbe, dateNumber_valid date b.startTime hbs]
    rw [jsLt_shift, jsLt_shift]
    simp [hbd]
  · simp [hbd]

lemma conflictAnyIff (date s e : String) (L : List BookingSlot)
    (hs : validTime s = true) (he : validTime e = true)
    (hL : ∀ b ∈ L, b.date = date →
      validTime b.startTime = true ∧ validTime b.endTime = true) :
    bookingsService.checkTimeConflict date s e L = true ↔
      ∃ b ∈ L, b.date = date ∧ mins s < mins b.endTime ∧ mins b.startTime < mins e := by
  rw [checkTimeConflict_eq_any, List.any_eq_true]
  constructor
  · rintro ⟨b, hbL, hb⟩
    exact ⟨b, hbL, (conflictElem date s e b hs he (hL b hbL)).mp hb⟩
  · rintro ⟨b, hbL, hb⟩
    exact ⟨b, hbL, (conflictElem date s e b hs he (hL b hbL)).mpr hb⟩

lemma conflictElem_congr (date s e : String) (a b : BookingSlot)
    (h1 : a.date = b.date) (h2 : a.startTime = b.startTime)
    (h3 : a.endTime = b.endTime) :
    (if a.date ≠ date then false
     else
       jsLt (dateNumber date s) (dateNumber a.date a.endTime) &&
         jsLt (dateNumber a.date a.startTime) (dateNumber date e)) =
    (if b.date ≠ date then false
     else
       jsLt (dateNumber date s) (dateNumber b.date b.endTime) &&
         jsLt (dateNumber b.date b.startTime) (dateNumber date e)) := by
  rw [h1, h2, h3]

lemma any_congr_perm {α : Type} (p : α → Bool) {l₁ l₂ : List α}
    (h : l₁.Perm l₂) : l₁.any p = l₂.any p := by
  induction h with
  | nil => rfl
  | cons x _ ih => rw [List.any_cons, List.any_cons, ih]
  | swap x y l => simp [List.any_cons, Bool.or_left_comm]
  | trans _ _ ih1 ih2 => rw [ih1, ih2]

lemma sheets_checkTimeConflict_eq_any (date s e : String)
    (L : List BookingSlot) :
    SheetsService.checkTimeConflict date s e L =
      L.any (fun b =>
        if b.date ≠ date then false
        else
          jsLt (timeToMinutes s) (timeToMinutes b.endTime) &&
            jsLt (timeToMinutes b.startTime) (timeToMinutes e)) := rfl

lemma elem_agree (date s e : String) (b : BookingSlot)
    (hs : validTime s = true) (he : validTime e = true)
    (hb : b.date = date →
      validTime b.startTime = true ∧ validTime b.endTime = true) :
    (if b.date ≠ date then false
     else
       jsLt (dateNumber date s) (dateNumber b.date b.endTime) &&
         jsLt (dateNumber b.date b.startTime) (dateNumber date e)) =
    (if b.date ≠ date then false
     else
       jsLt (timeToMinutes s) (timeToMinutes b.endTime) &&
         jsLt (timeToMinutes b.startTime) (timeToMinutes e)) := by
  by_cases hbd : b.date = date
  · obtain ⟨hbs, hbe⟩ := hb hbd
    rw [hbd]
    rw [dateNumber_valid date s hs, dateNumber_valid date e he,
      dateNumber_valid date b.endTime hbe, dateNumber_valid date b.startTime hbs,
      timeToMinutes_valid s hs, timeToMinutes_valid e he,
      timeToMinutes_valid b.endTime hbe, timeToMinutes_valid b.startTime hbs]
    rw [jsLt_shift, jsLt_shift]
    simp [jsLt]
  · simp [hbd]

namespace bookingsService

lemma charListLe_trans : ∀ a b c : List Char,
    charListLe a b = true → charListLe b c = true → charListLe a c = true := by
  intro a
  induction a with
  | nil => intro b c _ _; simp [charListLe]
  | cons x xs ih =>
    intro b c hab hbc
    cases b with
    | nil => simp [charListLe] at hab
    | cons y ys =>
      cases c with
      | nil => simp [charListLe] at hbc
      | cons z zs =>
        simp only [charListLe] at hab hbc ⊢
        rcases Nat.lt_trichotomy x.toNat y.toNat with h1 | h1 | h1 <;>
          rcases Nat.lt_trichotomy y.toNat z.toNat with h2 | h2 | h2
        · simp [Nat.lt_trans h1 h2]
        · simp [h2 ▸ h1]
        · simp [Nat.lt_asymm h2, h2] at hbc
        · simp [h1 ▸ h2]
        · have hxz : x.toNat = z.toNat := h1.trans h2
          simp [h1, hxz, h2, Nat.lt_irrefl] at hab hbc ⊢
          exact ih ys zs hab hbc
        · simp [Nat.lt_asymm h2, h2] at hbc
        · simp [Nat.lt_asymm h1, h1] at hab
        · simp [Nat.lt_asymm h1, h1] at hab
        · simp [Nat.lt_asymm h1, h1] at hab

lemma charListLe_total : ∀ a b : List Char,
    (charListLe a b || charListLe b a) = true := by
  intro a
  induction a with
  | nil => intro b; simp [charListLe]
  | cons x xs ih =>
    intro b
    cases b with
    | nil => simp [charListLe]
    | cons y ys =>
      simp only [charListLe]
      rcases Nat.lt_trichotomy x.toNat y.toNat with h | h | h
      · simp [h]
      · simp only [h, Nat.lt_irrefl, if_false, if_neg (Nat.lt_irrefl _)]
        exact ih ys
      · simp [Nat.lt_asymm h, h]

end bookingsService

/-! Claim theorems. -/

/-- C1: for a candidate (date, startTime, endTime) with well-formed times
and start before end, and a list whose same-date bookings also carry
well-formed times with start before end, checkTimeConflict returns true iff
some listed booking shares the candidate date and the two half-open
intervals overlap (candidateStart < B.endTime and B.startTime <
candidateEnd); consequently it is false on the empty list, and a same-date
booking ending exactly at the candidate start (or starting exactly at the
candidate end) is not a conflict. -/
theorem checkTimeConflict_halfOpen_overlap_iff (date s e : String)
    (L : List BookingSlot)
    (hs : validTime s = true) (he : validTime e = true)
    (hse : mins s < mins e)
    (hL : ∀ b ∈ L, b.date = date →
      validTime b.startTime = true ∧ validTime b.endTime = true ∧
        mins b.startTime < mins b.endTime) :
    (bookingsService.checkTimeConflict date s e L = true ↔
      ∃ b ∈ L, b.date = date ∧ mins s < mins b.endTime ∧
        mins b.startTime < mins e)
    ∧ bookingsService.checkTimeConflict date s e [] = false
    ∧ (∀ b : BookingSlot, b.date = date → validTime b.startTime = true →
        validTime b.endTime = true →
        (mins b.endTime = mins s ∨ mins b.startTime = mins e) →
        bookingsService.checkTimeConflict date s e [b] = false) := by
  refine ⟨?_, rfl, ?_⟩
  · exact conflictAnyIff date s e L hs he
      (fun b hbL hbd => ⟨(hL b hbL hbd).1, (hL b hbL hbd).2.1⟩)
  · intro b hbd hbs hbe hadj
    have hiff := conflictAnyIff date s e [b] hs he
      (fun x hx hxd => by
        rcases List.mem_singleton.mp hx with rfl
        exact ⟨hbs, hbe⟩)
    rw [Bool.eq_false_iff]
    intro hc
    obtain ⟨x, hx, hxd, h1, h2⟩ := hiff.mp hc
    rcases List.mem_singleton.mp hx with rfl
    rcases hadj with hadj | hadj
    · rw [hadj] at h1; exact lt_irrefl _ h1
    · rw [hadj] at h2; exact lt_irrefl _ h2

/-- C1 witness: the 09:30-10:30 candidate conflicts with the 09:00-10:00
staffMeeting on the same date. -/
theorem checkTimeConflict_halfOpen_overlap_iff_witness :
    bookingsService.checkTimeConflict "2025-03-10" "09:30" "10:30"
      [staffMeeting] = true := by
  have h := checkTimeConflict_halfOpen_overlap_iff "2025-03-10" "09:30" "10:30"
    [staffMeeting] (by decide) (by decide) (by decide) (by decide)
  exact h.1.mpr ⟨staffMeeting, by decide, by decide, by decide, by decide⟩

/-- C2: a booking on a different date never contributes a conflict,
whatever its time fields: prepending it leaves the result unchanged, and a
list holding only such a booking yields false. -/
theorem checkTimeConflict_crossDate_noninterference (date s e : String)
    (b : BookingSlot) (L : List BookingSlot) (h : b.date ≠ date) :
    bookingsService.checkTimeConflict date s e (b :: L) =
      bookingsService.checkTimeConflict date s e L
    ∧ bookingsService.checkTimeConflict date s e [b] = false := by
  constructor
  · rw [checkTimeConflict_eq_any, checkTimeConflict_eq_any, List.any_cons]
    simp [h]
  · rw [checkTimeConflict_eq_any]
    simp [h]

/-- C2 witness: a booking with identical start and end times but dated one
day later is not a conflict. -/
theorem checkTimeConflict_crossDate_noninterference_witness :
    bookingsService.checkTimeConflict "2025-03-10" "09:30" "10:30"
      [offByOneDay] = false :=
  (checkTimeConflict_crossDate_noninterference "2025-03-10" "09:30" "10:30"
    offByOneDay [] (by decide)).2

/-- C3: a well-formed booking X overlaps itself, so checkTimeConflict at
X's own slot is true whenever X is in the comparison list and false when
every same-date listed booking is disjoint from X; and the
handleUpdateBooking flow runs checkTimeConflict exactly on otherBookings,
the list from which the edited booking has been removed by id, a list that
never contains X. -/
theorem checkTimeConflict_self_overlap_and_update_exclusion
    (X : BookingSlot) (L : List BookingSlot)
    (hs : validTime X.startTime = true) (he : validTime X.endTime = true)
    (hlt : mins X.startTime < mins X.endTime) :
    (X ∈ L →
      bookingsService.checkTimeConflict X.date X.startTime X.endTime L = true)
    ∧ ((∀ b ∈ L, b.date = X.date →
          validTime b.startTime = true ∧ validTime b.endTime = true ∧
            (mins b.endTime ≤ mins X.startTime ∨
              mins X.endTime ≤ mins b.startTime)) →
        bookingsService.checkTimeConflict X.date X.startTime X.endTime L = false)
    ∧ (∀ (data : BookingFormData) (bookings : List BookingSlot),
        MyBookings.updateConflict data bookings X.id =
          bookingsService.checkTimeConflict data.date data.startTime
            data.endTime (MyBookings.otherBookings bookings X.id)
        ∧ X ∉ MyBookings.otherBookings bookings X.id) := by
  refine ⟨?_, ?_, ?_⟩
  · intro hXL
    rw [checkTimeConflict_eq_any, List.any_eq_true]
    exact ⟨X, hXL,
      (conflictElem X.date X.startTime X.endTime X hs he
        (fun _ => ⟨hs, he⟩)).mpr ⟨rfl, hlt, hlt⟩⟩
  · intro hnc
    have hiff := conflictAnyIff X.date X.startTime X.endTime L hs he
      (fun b hbL hbd => ⟨(hnc b hbL hbd).1, (hnc b hbL hbd).2.1⟩)
    rw [Bool.eq_false_iff]
    intro hc
    obtain ⟨b, hbL, hbd, h1, h2⟩ := hiff.mp hc
    rcases (hnc b hbL hbd).2.2 with hno | hno
    · exact absurd h1 (Nat.not_lt.mpr hno)
    · exact absurd h2 (Nat.not_lt.mpr hno)
  · intro data bookings
    refine ⟨rfl, ?_⟩
    intro hmem
    have := (List.mem_filter.mp hmem).2
    simp at this

/-- C3 witness: staffMeeting left in its own comparison list reports a
conflict with itself. -/
theorem checkTimeConflict_self_overlap_and_update_exclusion_witness :
    bookingsService.checkTimeConflict staffMeeting.date staffMeeting.startTime
      staffMeeting.endTime [staffMeeting] = true := by
  have h := checkTimeConflict_self_overlap_and_update_exclusion staffMeeting
    [staffMeeting] (by decide) (by decide) (by decide)
  exact h.1 (by decide)

/-- C4: when checkTimeConflict reports true, onSubmit never reaches
addBooking and leaves a nonempty conflict error; addBooking is reached only
when the check reported false; and addBooking itself inserts
unconditionally, with no conflict logic of its own. -/
theorem onSubmit_conflict_blocks_addBooking (uid : String)
    (data : BookingFormData) (L : List BookingSlot) :
    (bookingsService.checkTimeConflict data.date data.startTime data.endTime L
        = true →
      (BookingForm.onSubmit (some uid) data L).calledAddBooking = false ∧
        (BookingForm.onSubmit (some uid) data L).conflictError ≠ "")
    ∧ ((BookingForm.onSubmit (some uid) data L).calledAddBooking = true →
        bookingsService.checkTimeConflict data.date data.startTime data.endTime L
          = false)
    ∧ (∀ (store : List BookingRow) (newId createdAt : String),
        bookingsService.addBooking data uid store newId createdAt =
          (store ++
            [{ id := newId, date := data.date, start_time := data.startTime,
               end_time := data.endTime, title := data.title,
               booked_by := data.bookedBy, email := data.email,
               department := data.department, created_at := createdAt,
               user_id := uid }], true)) := by
  refine ⟨?_, ?_, fun store newId createdAt => rfl⟩
  · intro hc
    simp [BookingForm.onSubmit, hc]
  · intro hcall
    by_cases hc : bookingsService.checkTimeConflict data.date data.startTime
        data.endTime L = true
    · simp [BookingForm.onSubmit, hc] at hcall
    · simpa using hc

/-- C4 witness: submitting the overlapping budgetReview form against
staffMeeting does not invoke the repository create. -/
theorem onSubmit_conflict_blocks_addBooking_witness :
    (BookingForm.onSubmit (some "u2") budgetReview [staffMeeting]).calledAddBooking
      = false := by
  have h := onSubmit_conflict_blocks_addBooking "u2" budgetReview [staffMeeting]
  exact (h.1 (by decide)).1

/-- C5 counterexample: deleting an id for which no booking exists at all,
as a signed-in user, reports success (Except.ok true), not an error; the
backend delete that matched zero rows completed without error and the code
only throws on a backend error. -/
theorem deleteBooking_absent_row_reports_success :
    bookingsService.deleteBooking (some "u1") [] "b1" = ([], Except.ok true) := rfl

/-- C5 amended: deleteBooking fails only when no user is signed in; for a
signed-in user it removes exactly the matching owned rows and reports
success even when no such row exists, because a delete matching zero rows
completes without a backend error. -/
theorem deleteBooking_outcome (user : Option String) (store : List BookingRow)
    (bid : String) :
    (user = none →
      bookingsService.deleteBooking user store bid =
        (store, Except.error "User not authenticated"))
    ∧ (∀ uid, user = some uid →
        bookingsService.deleteBooking user store bid =
          (store.filter (fun r => !(r.id == bid && r.user_id == uid)),
            Except.ok true)) := by
  constructor
  · rintro rfl; rfl
  · rintro uid rfl; rfl

/-- C5 witness: with no signed-in user the call errors. -/
theorem deleteBooking_outcome_witness :
    bookingsService.deleteBooking none [] "b1" =
      ([], Except.error "User not authenticated") :=
  (deleteBooking_outcome none [] "b1").1 rfl

/-- C6: getBookings propagates a rejected query unchanged; on the backend's
date-ordered response it returns the wire rows, a permutation of the store,
mapped to the in-memory shape and still ordered by date ascending; and the
mapping renames start_time, end_time, booked_by, created_at to camelCase
while keeping user_id, id, date and title. -/
theorem getBookings_ordered_and_mapped (store : List BookingRow) (e : String) :
    bookingsService.getBookings (Except.error e) = Except.error e
    ∧ (∃ rows : List BookingRow, rows.Perm store ∧
        bookingsService.getBookings
          (Except.ok (some (bookingsService.dbSelectOrderByDate store))) =
          Except.ok (rows.map bookingsService.mapRow) ∧
        (rows.map bookingsService.mapRow).Pairwise
          (fun a b => bookingsService.strLe a.date b.date = true))
    ∧ (∀ r : BookingRow,
        (bookingsService.mapRow r).startTime = r.start_time ∧
        (bookingsService.mapRow r).endTime = r.end_time ∧
        (bookingsService.mapRow r).bookedBy = r.booked_by ∧
        (bookingsService.mapRow r).createdAt = r.created_at ∧
        (bookingsService.mapRow r).user_id = r.user_id ∧
        (bookingsService.mapRow r).date = r.date ∧
        (bookingsService.mapRow r).id = r.id ∧
        (bookingsService.mapRow r).title = r.title) := by
  refine ⟨rfl, ⟨bookingsService.dbSelectOrderByDate store,
    List.mergeSort_perm store _, rfl, ?_⟩,
    fun r => ⟨rfl, rfl, rfl, rfl, rfl, rfl, rfl, rfl⟩⟩
  have hs := @List.sorted_mergeSort BookingRow
    (fun a b : BookingRow => bookingsService.strLe a.date b.date)
    (fun a b c hab hbc =>
      bookingsService.charListLe_trans a.date.data b.date.data c.date.data hab hbc)
    (fun a b => bookingsService.charListLe_total a.date.data b.date.data)
    store
  rw [List.pairwise_map]
  exact hs

/-- C7: checkTimeConflict is a pure function of its four arguments; equal
arguments always yield the identical boolean, with no ambient state read or
written in the model. -/
theorem checkTimeConflict_deterministic (d s e : String) (L : List BookingSlot)
    (d₂ s₂ e₂ : String) (L₂ : List BookingSlot)
    (hd : d = d₂) (hs : s = s₂) (he : e = e₂) (hL : L = L₂) :
    bookingsService.checkTimeConflict d s e L =
      bookingsService.checkTimeConflict d₂ s₂ e₂ L₂ := by
  subst hd; subst hs; subst he; subst hL; rfl

/-- C7 witness: two calls at the same concrete arguments agree. -/
theorem checkTimeConflict_deterministic_witness :
    bookingsService.checkTimeConflict "2025-03-10" "09:00" "10:00" [staffMeeting] =
      bookingsService.checkTimeConflict "2025-03-10" "09:00" "10:00" [staffMeeting] :=
  checkTimeConflict_deterministic "2025-03-10" "09:00" "10:00" [staffMeeting]
    "2025-03-10" "09:00" "10:00" [staffMeeting] rfl rfl rfl rfl

/-- C8: two equal-length lists agreeing pairwise on date, startTime and
endTime give the same result for every candidate, whatever their id, title,
bookedBy, email, department, createdAt and user_id fields. -/
theorem checkTimeConflict_ignores_metadata (date s e : String)
    (L₁ L₂ : List BookingSlot)
    (h : List.Forall₂
      (fun a b => a.date = b.date ∧ a.startTime = b.startTime ∧
        a.endTime = b.endTime) L₁ L₂) :
    bookingsService.checkTimeConflict date s e L₁ =
      bookingsService.checkTimeConflict date s e L₂ := by
  rw [checkTimeConflict_eq_any, checkTimeConflict_eq_any]
  induction h with
  | nil => rfl
  | cons hab htl ih =>
    rw [List.any_cons, List.any_cons, ih,
      conflictElem_congr date s e _ _ hab.1 hab.2.1 hab.2.2]

/-- C8 witness: relabelling every metadata field of staffMeeting leaves the
result unchanged. -/
theorem checkTimeConflict_ignores_metadata_witness :
    bookingsService.checkTimeConflict "2025-03-10" "09:30" "10:30"
      [staffMeeting] =
    bookingsService.checkTimeConflict "2025-03-10" "09:30" "10:30"
      [staffMeetingRelabelled] :=
  checkTimeConflict_ignores_metadata "2025-03-10" "09:30" "10:30" _ _
    (List.Forall₂.cons ⟨rfl, rfl, rfl⟩ List.Forall₂.nil)

/-- C9: on a candidate with well-formed "HH:mm" times and a list whose
same-date entries carry well-formed times, the Date-based
bookingsService.checkTimeConflict and the minutes-based
SheetsService.checkTimeConflict return the same boolean. -/
theorem checkTimeConflict_impls_agree (date s e : String)
    (L : List BookingSlot)
    (hs : validTime s = true) (he : validTime e = true)
    (hL : ∀ b ∈ L, b.date = date →
      validTime b.startTime = true ∧ validTime b.endTime = true) :
    bookingsService.checkTimeConflict date s e L =
      SheetsService.checkTimeConflict date s e L := by
  rw [checkTimeConflict_eq_any, sheets_checkTimeConflict_eq_any]
  induction L with
  | nil => rfl
  | cons b L ih =>
    rw [List.any_cons, List.any_cons,
      elem_agree date s e b hs he (hL b (List.mem_cons_self _ _)),
      ih (fun x hx => hL x (List.mem_cons_of_mem _ hx))]

/-- C9 witness: the two implementations agree on a concrete overlapping
query. -/
theorem checkTimeConflict_impls_agree_witness :
    bookingsService.checkTimeConflict "2025-03-10" "09:30" "10:30"
      [staffMeeting] =
      SheetsService.checkTimeConflict "2025-03-10" "09:30" "10:30"
        [staffMeeting] :=
  checkTimeConflict_impls_agree "2025-03-10" "09:30" "10:30" [staffMeeting]
    (by decide) (by decide) (by decide)

/-- C10: checkTimeConflict over an appended list is the disjunction of the
results on the parts, hence monotone under list extension and invariant
under permutation of the existing bookings. -/
theorem checkTimeConflict_append_or (date s e : String)
    (xs ys : List BookingSlot) :
    bookingsService.checkTimeConflict date s e (xs ++ ys) =
      (bookingsService.checkTimeConflict date s e xs ||
        bookingsService.checkTimeConflict date s e ys)
    ∧ (bookingsService.checkTimeConflict date s e xs = true →
        bookingsService.checkTimeConflict date s e (xs ++ ys) = true)
    ∧ (∀ zs : List BookingSlot, xs.Perm zs →
        bookingsService.checkTimeConflict date s e xs =
          bookingsService.checkTimeConflict date s e zs) := by
  refine ⟨?_, ?_, ?_⟩
  · rw [checkTimeConflict_eq_any, checkTimeConflict_eq_any,
      checkTimeConflict_eq_any, List.any_append]
  · intro hxs
    rw [checkTimeConflict_eq_any, List.any_append]
    rw [checkTimeConflict_eq_any] at hxs
    rw [hxs, Bool.true_or]
  · intro zs hperm
    rw [checkTimeConflict_eq_any, checkTimeConflict_eq_any]
    exact any_congr_perm _ hperm

/-- C10 witness: the append law at a concrete pair of lists. -/
theorem checkTimeConflict_append_or_witness :
    bookingsService.checkTimeConflict "2025-03-10" "09:30" "10:30"
      ([staffMeeting] ++ [offByOneDay]) =
      (bookingsService.checkTimeConflict "2025-03-10" "09:30" "10:30"
        [staffMeeting] ||
        bookingsService.checkTimeConflict "2025-03-10" "09:30" "10:30"
          [offByOneDay]) :=
  (checkTimeConflict_append_or "2025-03-10" "09:30" "10:30"
    [staffMeeting] [offByOneDay]).1
